import Mathlib

/-!
Verification development for the anki-mcp-server resilient remote-call core:
error normalization (src/core/errors), the retry/backoff wrapper and the
cache-through wrapper (src/infrastructure/anki/AnkiClient.ts), the TTL cache
and batch optimizer (src/cacheManager.ts), and configuration validation
(src/infrastructure/config/AnkiConfig.ts).

JavaScript errors are modelled by an inductive `JsError`; thrown values (which
in JS may be arbitrary values, not only `Error` instances) by `Thrown`.
Machine time (`Date.now()`) is passed explicitly as a `Nat` millisecond clock.
-/

set_option maxHeartbeats 1000000

/-- The `ErrorCategory` enum of ErrorTypes.ts (src/unnamed/part_007):
CONNECTION, VALIDATION, AUTHORIZATION, BUSINESS_LOGIC, INFRASTRUCTURE,
UNKNOWN. -/
inductive ErrorCategory where
  | connection
  | validation
  | authorization
  | businessLogic
  | infrastructure
  | unknown
deriving DecidableEq, Repr

/-- The `ErrorSeverity` enum of ErrorTypes.ts (src/unnamed/part_007):
LOW, MEDIUM, HIGH, CRITICAL. -/
inductive ErrorSeverity where
  | low
  | medium
  | high
  | critical
deriving DecidableEq, Repr

/-- A JavaScript `Error` value, as relevant to this code base: either a plain
`Error` (only its message matters to the classification code) or a
`DomainError` subclass instance, which fixes `code`, `category`, `severity`
at construction and may carry a `cause` (DomainErrors.ts). The optional
`cause?: Error` field is modelled by two constructors (with / without cause)
so that equality stays derivable. -/
inductive JsError where
  | plain (message : String)
  | domainWith (code : String) (category : ErrorCategory) (severity : ErrorSeverity)
      (message : String) (cause : JsError)
  | domainNo (code : String) (category : ErrorCategory) (severity : ErrorSeverity)
      (message : String)
deriving DecidableEq, Repr

/-- Build a `DomainError` from an optional cause, as the DomainErrors.ts
constructors do with their `cause?` parameter. -/
def JsError.mkDomain (code : String) (category : ErrorCategory)
    (severity : ErrorSeverity) (message : String) : Option JsError → JsError
  | some c => .domainWith code category severity message c
  | none => .domainNo code category severity message

/-- A value thrown by JavaScript code: an `Error` instance, or any other value
(of which only `String(value)` is ever observed by this code base). -/
inductive Thrown where
  | err (e : JsError)
  | nonError (stringOfValue : String)
deriving DecidableEq, Repr

/-- The `message` property of an error. -/
def JsError.message : JsError → String
  | .plain m => m
  | .domainWith _ _ _ m _ => m
  | .domainNo _ _ _ m => m

/-- Whether the error is an instance of the abstract `DomainError` class. -/
def JsError.isDomainError : JsError → Bool
  | .plain _ => false
  | .domainWith _ _ _ _ _ => true
  | .domainNo _ _ _ _ => true

/-- The `category` of a `DomainError` (plain errors have none). -/
def JsError.category : JsError → Option ErrorCategory
  | .plain _ => none
  | .domainWith _ cat _ _ _ => some cat
  | .domainNo _ cat _ _ => some cat

/-- The `severity` of a `DomainError` (plain errors have none). -/
def JsError.severity : JsError → Option ErrorSeverity
  | .plain _ => none
  | .domainWith _ _ sev _ _ => some sev
  | .domainNo _ _ sev _ => some sev

/-- `AnkiConnectionError` (DomainErrors.ts): code ANKI_CONNECTION_ERROR,
category CONNECTION, severity HIGH. -/
def ankiConnectionError (message : String) (cause : Option JsError) : JsError :=
  .mkDomain "ANKI_CONNECTION_ERROR" .connection .high message cause

/-- `AnkiTimeoutError` (DomainErrors.ts): code ANKI_TIMEOUT_ERROR,
category CONNECTION, severity MEDIUM. -/
def ankiTimeoutError (message : String) (cause : Option JsError) : JsError :=
  .mkDomain "ANKI_TIMEOUT_ERROR" .connection .medium message cause

/-- `AnkiApiError` (DomainErrors.ts): code ANKI_API_ERROR,
category INFRASTRUCTURE, severity MEDIUM. -/
def ankiApiError (message : String) (cause : Option JsError) : JsError :=
  .mkDomain "ANKI_API_ERROR" .infrastructure .medium message cause

/-- `ConfigurationError` (DomainErrors.ts): code CONFIGURATION_ERROR,
category INFRASTRUCTURE, severity CRITICAL. -/
def configurationError (message : String) : JsError :=
  .mkDomain "CONFIGURATION_ERROR" .infrastructure .critical message none

/-- Whether list `p` is a prefix of list `s` (executable, kernel-friendly). -/
def segStarts : List Char → List Char → Bool
  | [], _ => true
  | _ :: _, [] => false
  | p :: ps, c :: cs => p == c && segStarts ps cs

/-- Whether list `pat` occurs contiguously inside list `s`. -/
def segIn (pat : List Char) : List Char → Bool
  | [] => pat.isEmpty
  | c :: cs => segStarts pat (c :: cs) || segIn pat cs

/-- JavaScript `s.includes(pat)`: substring containment, modelled on the
character lists. -/
def jsIncludes (s pat : String) : Bool :=
  segIn pat.toList s.toList

/-- The fixed message of the normalizer's `AnkiConnectionError`
(AnkiClient.ts line 114). -/
def connectionRefusedMessage : String :=
  "Anki is not running. Please start Anki and ensure AnkiConnect plugin is enabled."

/-- The fixed message of the normalizer's `AnkiTimeoutError`
(AnkiClient.ts line 125). -/
def timedOutMessage : String :=
  "Connection to Anki timed out. Please check if Anki is responsive."

/-- The fixed message of the normalizer's `AnkiApiError`
(AnkiClient.ts line 133). -/
def collectionUnavailableMessage : String :=
  "Anki collection is unavailable. Please close any open dialogs in Anki."

/-- `AnkiClient.normalizeError` (AnkiClient.ts lines 109-142): for an `Error`
instance, classify by message substrings in fixed order (ECONNREFUSED, then
timeout/ETIMEDOUT, then collection unavailable), wrapping with the matching
DomainError subclass and the original error as cause; any other `Error` is
returned unchanged; a non-`Error` thrown value becomes `new Error(String(value))`. -/
def normalizeError : Thrown → JsError
  | .err e =>
    if jsIncludes e.message "ECONNREFUSED" then
      ankiConnectionError connectionRefusedMessage (some e)
    else if jsIncludes e.message "timeout" || jsIncludes e.message "ETIMEDOUT" then
      ankiTimeoutError timedOutMessage (some e)
    else if jsIncludes e.message "collection unavailable" then
      ankiApiError collectionUnavailableMessage (some e)
    else
      e
  | .nonError s => .plain s

/-- Observable outcome of one `executeWithRetry` call: the returned value or
thrown error, how many times the operation closure was invoked, the backoff
sleeps performed (in milliseconds, in order), and whether a performance-monitor
timer record was made for the call. -/
structure RetryTrace (T : Type) where
  result : Except JsError T
  invocations : Nat
  sleeps : List Nat
  timerRecorded : Bool
deriving Repr

/-- Loop body of `AnkiClient.executeWithRetry` (AnkiClient.ts lines 53-73).
The operation closure is modelled as a function from the invocation index
(the `attempt` counter) to its outcome. `attempt` is the current loop counter,
`remaining` the number of loop iterations still allowed after this one
(initially `maxRetries`). On failure the code stores the normalized error in
`lastError`; only the final attempt's stored value is ever thrown, so the
normalization of intermediate failures is observationally dead and elided here.
The `lastError || new AnkiConnectionError(...)` fallback at line 73 is
unreachable: the loop always runs at least once (`maxRetries >= 0`), so
`lastError` is set on the all-fail path. -/
def retryAux (op : Nat → Except Thrown T) (retryDelay : Nat) :
    (attempt : Nat) → (remaining : Nat) → RetryTrace T
  | attempt, 0 =>
    match op attempt with
    | .ok v => ⟨.ok v, 1, [], true⟩
    | .error raw => ⟨.error (normalizeError raw), 1, [], true⟩
  | attempt, r + 1 =>
    match op attempt with
    | .ok v => ⟨.ok v, 1, [], true⟩
    | .error _ =>
      let rest := retryAux op retryDelay (attempt + 1) r
      ⟨rest.result, rest.invocations + 1,
        min (1000 * 2 ^ attempt) retryDelay :: rest.sleeps, true⟩

/-- `AnkiClient.executeWithRetry` (AnkiClient.ts lines 40-80): run the
operation for attempts `0..maxRetries`, returning on first success, sleeping
`min(1000 * 2^attempt, retryDelay)` ms between failed attempts, and throwing
the last normalized error on exhaustion. The performance timer is started
before the loop and stopped in `finally`, so it is recorded on every path. -/
def executeWithRetry (op : Nat → Except Thrown T) (maxRetries retryDelay : Nat) :
    RetryTrace T :=
  retryAux op retryDelay 0 maxRetries

/-- JavaScript `s.startsWith(pre)`. -/
def jsStartsWith (s pre : String) : Bool :=
  segStarts pre.toList s.toList

/-- `CacheEntry<T>` (cacheManager.ts lines 4-8): stored data, insertion
timestamp (epoch ms) and time-to-live (ms). -/
structure CacheEntry (V : Type) where
  data : V
  timestamp : Nat
  ttl : Nat
deriving DecidableEq, Repr

/-- The cache's backing `Map<string, CacheEntry<any>>`, modelled as an
association list in insertion order (JS `Map` preserves insertion order and
holds at most one entry per key). -/
abbrev Cache (V : Type) := List (String × CacheEntry V)

/-- JS `Map.prototype.get`: the entry stored at the first (and, under the
`Map` invariant, only) occurrence of the key. -/
def mapGet : Cache V → String → Option (CacheEntry V)
  | [], _ => none
  | p :: rest, k => if p.1 == k then some p.2 else mapGet rest k

/-- JS `Map.prototype.set`: overwrite in place if the key exists, else append. -/
def mapSet (c : Cache V) (k : String) (e : CacheEntry V) : Cache V :=
  if c.any (fun p => p.1 == k) then
    c.map (fun p => if p.1 == k then (k, e) else p)
  else
    c ++ [(k, e)]

/-- JS `Map.prototype.delete` (the resulting map). -/
def mapDelete (c : Cache V) (k : String) : Cache V :=
  c.filter (fun p => p.1 != k)

/-- The well-formedness invariant every JS `Map` maintains: keys are distinct. -/
def CacheWF (c : Cache V) : Prop :=
  (c.map Prod.fst).Nodup

instance : DecidablePred (CacheWF (V := V)) := fun c =>
  inferInstanceAs (Decidable ((c.map Prod.fst).Nodup))

/-- `CacheManager.get` (cacheManager.ts lines 17-28): absent keys return null;
an entry with `now - timestamp > ttl` is expired, deleted, and reported as
null; otherwise the stored data is returned. The pair also carries the cache
state after the call (lazy eviction is its only side effect). -/
def cacheGet (c : Cache V) (key : String) (now : Nat) : Option V × Cache V :=
  match mapGet c key with
  | none => (none, c)
  | some entry =>
    if now - entry.timestamp > entry.ttl then (none, mapDelete c key)
    else (some entry.data, c)

/-- `CacheManager.set` (cacheManager.ts lines 33-39): unconditionally store
`{data, timestamp: Date.now(), ttl}` under `key`. -/
def cacheSet (c : Cache V) (key : String) (data : V) (ttl now : Nat) : Cache V :=
  mapSet c key ⟨data, now, ttl⟩

/-- `CacheManager.deleteByPrefix` (cacheManager.ts lines 51-57): delete every
entry whose key starts with `pre`. -/
def cacheDeleteByPre (c : Cache V) (pre : String) : Cache V :=
  c.filter (fun p => !(jsStartsWith p.1 pre))

/-- `CacheManager.cleanup` (cacheManager.ts lines 62-69): evict all entries
expired as of `now`. -/
def cacheCleanup (c : Cache V) (now : Nat) : Cache V :=
  c.filter (fun p => !(now - p.2.timestamp > p.2.ttl))

/-- `CacheManager.getStats().totalEntries` (cacheManager.ts line 89):
`this.cache.size`. The `memoryUsage` string (a `JSON.stringify` byte count) is
diagnostics-only and not modelled. -/
def totalEntries (c : Cache V) : Nat :=
  c.length

/-- `CacheManager.getStats().expiredEntries` (cacheManager.ts lines 80-86). -/
def expiredEntries (c : Cache V) (now : Nat) : Nat :=
  (c.filter (fun p => now - p.2.timestamp > p.2.ttl)).length

/-- The MCP error codes this code base maps to (`ErrorCode` of the MCP SDK). -/
inductive McpErrorCode where
  | internalError
  | invalidParams
  | invalidRequest
deriving DecidableEq, Repr

/-- An `McpError` as thrown by `ErrorHandler.toMcpError`. -/
structure McpError where
  code : McpErrorCode
  message : String
deriving DecidableEq, Repr

/-- `ErrorHandler.getMcpErrorCode` (ErrorHandler.ts lines 100-120). The
INFRASTRUCTURE arm is a ternary whose branches are both InternalError in the
source; it is kept as written. -/
def getMcpErrorCode : ErrorCategory → ErrorSeverity → McpErrorCode
  | .connection, _ => .internalError
  | .validation, _ => .invalidParams
  | .authorization, _ => .invalidParams
  | .businessLogic, _ => .invalidRequest
  | .infrastructure, sev =>
    if sev = .critical then .internalError else .internalError
  | .unknown, _ => .internalError

/-- `ErrorHandler.toMcpError` (ErrorHandler.ts lines 83-92): DomainErrors map
their category/severity through `getMcpErrorCode`; any other error becomes an
InternalError with the same message. -/
def toMcpError : JsError → McpError
  | .domainWith _ cat sev m _ => ⟨getMcpErrorCode cat sev, m⟩
  | .domainNo _ cat sev m => ⟨getMcpErrorCode cat sev, m⟩
  | .plain m => ⟨.internalError, m⟩

/-- Observable outcome of one `executeWithCache` call: result, cache state
after the call, number of operation invocations, and whether a
performance-monitor timer record was made. -/
structure CacheCallTrace (V : Type) where
  result : Except JsError V
  cache : Cache V
  invocations : Nat
  timerRecorded : Bool
deriving Repr

/-- `AnkiClient.executeWithCache` (AnkiClient.ts lines 85-104) for operations
whose result type does not include `null`: consult the cache first (the
`cached !== null` guard is then exactly a presence test); on miss delegate to
`executeWithRetry`; on its success store the result under `cacheKey` with the
given `ttl` and return it; on failure the error propagates and nothing is
stored. -/
def executeWithCache (c : Cache V) (key : String) (op : Nat → Except Thrown V)
    (maxRetries retryDelay ttl now : Nat) : CacheCallTrace V :=
  match cacheGet c key now with
  | (some v, c1) => ⟨.ok v, c1, 0, false⟩
  | (none, c1) =>
    let t := executeWithRetry op maxRetries retryDelay
    match t.result with
    | .ok v => ⟨.ok v, cacheSet c1 key v ttl now, t.invocations, t.timerRecorded⟩
    | .error e => ⟨.error e, c1, t.invocations, t.timerRecorded⟩

/-- `AnkiClient.executeWithCache` (AnkiClient.ts lines 85-104) for operations
whose result type includes `null` (modelled as `Option W` with `none` = null):
`CacheManager.get` returns the stored data or null, so the JS-visible cached
value is the flattening `Option.join`, and the `cached !== null` guard cannot
distinguish a stored null from a miss. -/
def executeWithCacheNullable (c : Cache (Option W)) (key : String)
    (op : Nat → Except Thrown (Option W)) (maxRetries retryDelay ttl now : Nat) :
    CacheCallTrace (Option W) :=
  let r := cacheGet c key now
  match r.1.join, r.2 with
  | some v, c1 => ⟨.ok (some v), c1, 0, false⟩
  | none, c1 =>
    let t := executeWithRetry op maxRetries retryDelay
    match t.result with
    | .ok v => ⟨.ok v, cacheSet c1 key v ttl now, t.invocations, t.timerRecorded⟩
    | .error e => ⟨.error e, c1, t.invocations, t.timerRecorded⟩

/-- Observable outcome of a public `AnkiClient` method call: result or thrown
`McpError`, cache state after the call, and transport invocations. -/
structure ClientCallTrace (V R : Type) where
  result : Except McpError R
  cache : Cache V
  invocations : Nat
deriving Repr

/-- `AnkiClient.createDeck` (AnkiClient.ts lines 183-199): run the transport
call through `executeWithRetry` (never cached); on success clear every cache
entry with key prefix "deck" and return the result coerced to a number
(`typeof result === "number" ? result : 0`, the transport result is modelled
as `Option Int` with `none` for a non-number); on failure re-normalize the
caught error and throw `ErrorHandler.toMcpError` of it, leaving the cache
unchanged. -/
def createDeck (c : Cache V) (op : Nat → Except Thrown (Option Int))
    (maxRetries retryDelay : Nat) : ClientCallTrace V Int :=
  let t := executeWithRetry op maxRetries retryDelay
  match t.result with
  | .ok v =>
    ⟨.ok (match v with | some n => n | none => 0),
      cacheDeleteByPre c "deck", t.invocations⟩
  | .error e =>
    ⟨.error (toMcpError (normalizeError (.err e))), c, t.invocations⟩

/-- `AnkiClient.getDeckNames` (AnkiClient.ts lines 166-178): read through
`executeWithCache` under key "deckNames" with a 2-minute TTL; on failure
re-normalize and convert to an `McpError`. -/
def getDeckNames (c : Cache V) (op : Nat → Except Thrown V)
    (maxRetries retryDelay now : Nat) : ClientCallTrace V V :=
  let t := executeWithCache c "deckNames" op maxRetries retryDelay (2 * 60 * 1000) now
  match t.result with
  | .ok v => ⟨.ok v, t.cache, t.invocations⟩
  | .error e => ⟨.error (toMcpError (normalizeError (.err e))), t.cache, t.invocations⟩

/-- The six `AnkiConfig` constructor parameters
(AnkiConfig.ts lines 18-34). JS numbers are modelled as integers. -/
structure AnkiConfigParams where
  url : String
  apiVersion : Int
  timeout : Int
  retryAttempts : Int
  retryDelay : Int
  defaultDeck : String
deriving DecidableEq, Repr

/-- The default constructor arguments (AnkiConfig.ts lines 19-24). -/
def defaultAnkiConfigParams : AnkiConfigParams :=
  ⟨"http://localhost:8765", 6, 5000, 3, 1000, "Default"⟩

/-- The deck-name emptiness test of `AnkiConfig.validate` (AnkiConfig.ts line
106): `!this.defaultDeck || this.defaultDeck.trim().length === 0`. The empty
string is falsy and `trim` strips exactly the whitespace, so the test holds
iff the string has no non-whitespace character. -/
def jsTrimEmpty (s : String) : Bool :=
  s.toList.all (fun ch => ch.isWhitespace)

/-- `AnkiConfig.validate` (AnkiConfig.ts lines 67-115), accumulating the error
messages in source order. Whether `new URL(this.url)` throws is decided by the
host's WHATWG URL parser, modelled as the predicate `urlParses` passed in. -/
def validateErrors (urlParses : String → Bool) (p : AnkiConfigParams) : List String :=
  (if urlParses p.url then [] else ["Invalid Anki URL: " ++ p.url]) ++
  (if p.apiVersion < 1 || p.apiVersion > 10 then
    ["Invalid API version. Must be between 1 and 10."] else []) ++
  (if p.timeout < 1000 || p.timeout > 60000 then
    ["Invalid timeout. Must be between 1000ms and 60000ms."] else []) ++
  (if p.retryAttempts < 0 || p.retryAttempts > 10 then
    ["Invalid retry attempts. Must be between 0 and 10."] else []) ++
  (if p.retryDelay < 100 || p.retryDelay > 10000 then
    ["Invalid retry delay. Must be between 100ms and 10000ms."] else []) ++
  (if jsTrimEmpty p.defaultDeck then
    ["Default deck name cannot be empty"] else [])

/-- The `AnkiConfig` constructor (AnkiConfig.ts lines 18-34): assign the six
readonly fields, then `validate()`; a non-empty error list throws a
`ConfigurationError` joining the messages. -/
def mkAnkiConfig (urlParses : String → Bool) (p : AnkiConfigParams) :
    Except JsError AnkiConfigParams :=
  let errs := validateErrors urlParses p
  if errs.length > 0 then
    .error (configurationError
      ("Anki configuration validation failed: " ++ String.intercalate ", " errs))
  else
    .ok p

/-- The overridable subset of the configuration (`Partial<IAnkiConfig>`). -/
structure AnkiConfigOverrides where
  url : Option String
  apiVersion : Option Int
  timeout : Option Int
  retryAttempts : Option Int
  retryDelay : Option Int
  defaultDeck : Option String
deriving DecidableEq, Repr

/-- The `overrides.x ?? this.x` merge of `AnkiConfig.withOverrides`
(AnkiConfig.ts lines 134-143). -/
def mergeOverrides (cfg : AnkiConfigParams) (o : AnkiConfigOverrides) :
    AnkiConfigParams :=
  ⟨o.url.getD cfg.url, o.apiVersion.getD cfg.apiVersion, o.timeout.getD cfg.timeout,
    o.retryAttempts.getD cfg.retryAttempts, o.retryDelay.getD cfg.retryDelay,
    o.defaultDeck.getD cfg.defaultDeck⟩

/-- `AnkiConfig.withOverrides` (AnkiConfig.ts lines 134-143): construct a new
`AnkiConfig` from the merged parameters (hence re-validating eagerly). -/
def withOverrides (urlParses : String → Bool) (cfg : AnkiConfigParams)
    (o : AnkiConfigOverrides) : Except JsError AnkiConfigParams :=
  mkAnkiConfig urlParses (mergeOverrides cfg o)

/-- The validity conditions of claim C8, stated in the spec's words: URL
parses, apiVersion in [1,10], timeout in [1000,60000], retryAttempts in
[0,10], retryDelay in [100,10000], default deck name nonempty after trim. -/
def ParamsValid (urlParses : String → Bool) (p : AnkiConfigParams) : Prop :=
  urlParses p.url = true ∧ 1 ≤ p.apiVersion ∧ p.apiVersion ≤ 10 ∧
  1000 ≤ p.timeout ∧ p.timeout ≤ 60000 ∧
  0 ≤ p.retryAttempts ∧ p.retryAttempts ≤ 10 ∧
  100 ≤ p.retryDelay ∧ p.retryDelay ≤ 10000 ∧
  jsTrimEmpty p.defaultDeck = false

instance (urlParses : String → Bool) (p : AnkiConfigParams) :
    Decidable (ParamsValid urlParses p) :=
  inferInstanceAs (Decidable (_ ∧ _))

/-- Batch partitioning of `BatchOptimizer.processBatch` (cacheManager.ts lines
253-256): `for (i = 0; i < items.length; i += batchSize) slice(i, i+batchSize)`.
Fuel-based recursion; with `fuel = items.length` and `batchSize ≥ 1` the fuel
never runs out (with `batchSize = 0` the JS loop does not terminate either). -/
def chunksAux (bs : Nat) : Nat → List α → List (List α)
  | _, [] => []
  | 0, _ :: _ => []
  | f + 1, x :: xs => (x :: xs).take bs :: chunksAux bs f ((x :: xs).drop bs)

/-- The batch list `batches` of `BatchOptimizer.processBatch`. -/
def chunks (bs : Nat) (items : List α) : List (List α) :=
  chunksAux bs items.length items

/-- `processQueue` (cacheManager.ts lines 262-280): drain a batch queue,
appending each batch's results to the shared `results` array; a batch whose
processor throws is logged and skipped ("Continue processing other batches"). -/
def runWorkerQueue (processor : List α → Except Thrown (List β))
    (queue : List (List α)) : List β :=
  queue.flatMap (fun b => match processor b with | .ok rs => rs | .error _ => [])

/-- `BatchOptimizer.processBatch` (cacheManager.ts lines 238-290). The source
creates `min(maxConcurrency, batches.length)` workers, but hands each worker
its own copy `[...batches]` of the batch queue (line 285), so every worker
drains the full queue. The workers only interleave at `await` points;
interleaving affects just the order of the shared `results` array, so the
model serializes the workers in creation order. -/
def processBatch (items : List α) (processor : List α → Except Thrown (List β))
    (batchSize maxConcurrency : Nat) : List β :=
  let batches := chunks batchSize items
  let workerCount := min maxConcurrency batches.length
  (List.range workerCount).flatMap (fun _ => runWorkerQueue processor batches)

/-- A transport operation that always throws `Error("ECONNREFUSED")`. -/
def opAlwaysRefused : Nat → Except Thrown Nat :=
  fun _ => .error (.err (.plain "ECONNREFUSED"))

/-- A transport operation that throws `Error("ECONNREFUSED")` on its first
invocation and resolves with 42 afterwards. -/
def opOnceThenOk : Nat → Except Thrown Nat :=
  fun n => if n = 0 then .error (.err (.plain "ECONNREFUSED")) else .ok 42

/-- A stand-in for the host's WHATWG URL parser accepting exactly the default
URL, used to instantiate the validation theorem on concrete inputs. -/
def localhostOnly : String → Bool :=
  fun s => s == "http://localhost:8765"

theorem retryAux_timerRecorded (op : Nat → Except Thrown T) (d : Nat) :
    ∀ a r, (retryAux op d a r).timerRecorded = true := by
  intro a r
  induction r generalizing a with
  | zero => unfold retryAux; cases op a <;> rfl
  | succ r ih => unfold retryAux; cases op a <;> simp

theorem retryAux_invocations_pos (op : Nat → Except Thrown T) (d : Nat) :
    ∀ a r, 1 ≤ (retryAux op d a r).invocations := by
  intro a r
  induction r generalizing a with
  | zero => unfold retryAux; cases op a <;> simp
  | succ r ih => unfold retryAux; cases op a <;> simp

theorem retryAux_invocations_le (op : Nat → Except Thrown T) (d : Nat) :
    ∀ a r, (retryAux op d a r).invocations ≤ r + 1 := by
  intro a r
  induction r generalizing a with
  | zero => unfold retryAux; cases op a <;> simp
  | succ r ih =>
    unfold retryAux
    cases op a with
    | ok v => simp
    | error raw => simpa using ih (a + 1)

theorem retryAux_ok (op : Nat → Except Thrown T) (d : Nat) :
    ∀ k a r (v : T), k ≤ r → (∀ j, j < k → ∃ e, op (a + j) = .error e) →
      op (a + k) = .ok v →
      (retryAux op d a r).result = .ok v ∧ (retryAux op d a r).invocations = k + 1 := by
  intro k
  induction k with
  | zero =>
    intro a r v _ _ hok
    simp only [Nat.add_zero] at hok
    cases r <;> unfold retryAux <;> rw [hok] <;> exact ⟨rfl, rfl⟩
  | succ k ih =>
    intro a r v hkr hfail hok
    obtain ⟨e0, he0⟩ := hfail 0 (Nat.succ_pos k)
    simp only [Nat.add_zero] at he0
    obtain ⟨r', rfl⟩ : ∃ r', r = r' + 1 :=
      ⟨r - 1, by omega⟩
    have hrec := ih (a + 1) r' v (by omega)
      (fun j hj => by
        obtain ⟨e, he⟩ := hfail (j + 1) (by omega)
        exact ⟨e, by rw [← he]; congr 1; omega⟩)
      (by rw [← hok]; congr 1; omega)
    unfold retryAux
    rw [he0]
    exact ⟨hrec.1, by simpa using hrec.2⟩

theorem retryAux_allFail (op : Nat → Except Thrown T) (d : Nat) :
    ∀ r a, (∀ j, j ≤ r → ∃ e, op (a + j) = .error e) →
      (retryAux op d a r).invocations = r + 1 ∧
      ∃ e, op (a + r) = .error e ∧
        (retryAux op d a r).result = .error (normalizeError e) := by
  intro r
  induction r with
  | zero =>
    intro a hfail
    obtain ⟨e, he⟩ := hfail 0 (Nat.le_refl 0)
    simp only [Nat.add_zero] at he
    unfold retryAux
    rw [he]
    exact ⟨rfl, e, by simpa using he, rfl⟩
  | succ r ih =>
    intro a hfail
    obtain ⟨e0, he0⟩ := hfail 0 (Nat.zero_le _)
    simp only [Nat.add_zero] at he0
    have hrec := ih (a + 1)
      (fun j hj => by
        obtain ⟨e, he⟩ := hfail (j + 1) (by omega)
        exact ⟨e, by rw [← he]; congr 1; omega⟩)
    obtain ⟨hinv, e, he, hres⟩ := hrec
    unfold retryAux
    rw [he0]
    refine ⟨by simpa using hinv, e, ?_, hres⟩
    rw [← he]; congr 1; omega

theorem normalizeError_econnCase (e : JsError)
    (h : jsIncludes e.message "ECONNREFUSED" = true) :
    normalizeError (.err e) = ankiConnectionError connectionRefusedMessage (some e) := by
  simp [normalizeError, h]

theorem normalizeError_timeoutCase (e : JsError)
    (h1 : jsIncludes e.message "ECONNREFUSED" = false)
    (h2 : (jsIncludes e.message "timeout" || jsIncludes e.message "ETIMEDOUT") = true) :
    normalizeError (.err e) = ankiTimeoutError timedOutMessage (some e) := by
  simp [normalizeError, h1, h2]

theorem normalizeError_collectionCase (e : JsError)
    (h1 : jsIncludes e.message "ECONNREFUSED" = false)
    (h2 : (jsIncludes e.message "timeout" || jsIncludes e.message "ETIMEDOUT") = false)
    (h3 : jsIncludes e.message "collection unavailable" = true) :
    normalizeError (.err e) = ankiApiError collectionUnavailableMessage (some e) := by
  simp [normalizeError, h1, h2, h3]

theorem normalizeError_pass (e : JsError)
    (h1 : jsIncludes e.message "ECONNREFUSED" = false)
    (h2 : (jsIncludes e.message "timeout" || jsIncludes e.message "ETIMEDOUT") = false)
    (h3 : jsIncludes e.message "collection unavailable" = false) :
    normalizeError (.err e) = e := by
  simp [normalizeError, h1, h2, h3]

theorem jsIncludes_mkDomain (code : String) (cat : ErrorCategory)
    (sev : ErrorSeverity) (m : String) (o : Option JsError) (pat : String) :
    jsIncludes (JsError.mkDomain code cat sev m o).message pat = jsIncludes m pat := by
  cases o <;> rfl

theorem normalizeError_idem_on_domain (t : Thrown)
    (h : (normalizeError t).isDomainError = true) :
    normalizeError (.err (normalizeError t)) = normalizeError t := by
  cases t with
  | nonError s => exact absurd h (by simp [normalizeError, JsError.isDomainError])
  | err e =>
    cases h1 : jsIncludes e.message "ECONNREFUSED" with
    | true =>
      rw [normalizeError_econnCase e h1]
      exact normalizeError_pass _
        (by simp only [ankiConnectionError, jsIncludes_mkDomain]; decide)
        (by simp only [ankiConnectionError, jsIncludes_mkDomain]; decide)
        (by simp only [ankiConnectionError, jsIncludes_mkDomain]; decide)
    | false =>
      cases h2 : (jsIncludes e.message "timeout" || jsIncludes e.message "ETIMEDOUT") with
      | true =>
        rw [normalizeError_timeoutCase e h1 h2]
        exact normalizeError_pass _
          (by simp only [ankiTimeoutError, jsIncludes_mkDomain]; decide)
          (by simp only [ankiTimeoutError, jsIncludes_mkDomain]; decide)
          (by simp only [ankiTimeoutError, jsIncludes_mkDomain]; decide)
      | false =>
        cases h3 : jsIncludes e.message "collection unavailable" with
        | true =>
          rw [normalizeError_collectionCase e h1 h2 h3]
          exact normalizeError_pass _
            (by simp only [ankiApiError, jsIncludes_mkDomain]; decide)
            (by simp only [ankiApiError, jsIncludes_mkDomain]; decide)
            (by simp only [ankiApiError, jsIncludes_mkDomain]; decide)
        | false =>
          rw [normalizeError_pass e h1 h2 h3]
          exact normalizeError_pass e h1 h2 h3

/-- C4 counterexample: an `Error` whose message matches none of the three
patterns crosses the wrapper boundary as the same plain `Error`, not as any
DomainError: `executeWithRetry` over an operation that always throws
`Error("boom")` throws `Error("boom")` itself, and that error is not a
DomainError instance. -/
theorem executeWithRetry_leaks_plain_error :
    (executeWithRetry (fun _ => .error (.err (.plain "boom"))) 2 1000
        (T := Nat)).result = .error (.plain "boom") ∧
    (JsError.plain "boom").isDomainError = false := by
  exact ⟨rfl, rfl⟩

/-- C4 (amended): the normalizer classifies ECONNREFUSED / timeout /
collection-unavailable messages into the corresponding DomainError subclass
(with its fixed category and severity), but any other `Error` instance is
returned unchanged — it crosses the wrapper boundary as a generic error, not
wrapped as an UNKNOWN-category DomainError — and every non-`Error` thrown
value is coerced to `Error(String(value))`. -/
theorem normalizeError_boundary_spec (e : JsError) :
    (jsIncludes e.message "ECONNREFUSED" = true →
      normalizeError (.err e) = ankiConnectionError connectionRefusedMessage (some e) ∧
      (normalizeError (.err e)).category = some .connection ∧
      (normalizeError (.err e)).severity = some .high ∧
      (normalizeError (.err e)).isDomainError = true) ∧
    (jsIncludes e.message "ECONNREFUSED" = false →
      (jsIncludes e.message "timeout" || jsIncludes e.message "ETIMEDOUT") = true →
      normalizeError (.err e) = ankiTimeoutError timedOutMessage (some e) ∧
      (normalizeError (.err e)).isDomainError = true) ∧
    (jsIncludes e.message "ECONNREFUSED" = false →
      (jsIncludes e.message "timeout" || jsIncludes e.message "ETIMEDOUT") = false →
      jsIncludes e.message "collection unavailable" = true →
      normalizeError (.err e) = ankiApiError collectionUnavailableMessage (some e) ∧
      (normalizeError (.err e)).isDomainError = true) ∧
    (jsIncludes e.message "ECONNREFUSED" = false →
      (jsIncludes e.message "timeout" || jsIncludes e.message "ETIMEDOUT") = false →
      jsIncludes e.message "collection unavailable" = false →
      normalizeError (.err e) = e) ∧
    (∀ s, normalizeError (.nonError s) = .plain s) := by
  refine ⟨fun h1 => ?_, fun h1 h2 => ?_, fun h1 h2 h3 => ?_,
    fun h1 h2 h3 => normalizeError_pass e h1 h2 h3, fun s => rfl⟩
  · rw [normalizeError_econnCase e h1]
    exact ⟨rfl, by cases e <;> rfl, by cases e <;> rfl, by cases e <;> rfl⟩
  · rw [normalizeError_timeoutCase e h1 h2]
    exact ⟨rfl, by cases e <;> rfl⟩
  · rw [normalizeError_collectionCase e h1 h2 h3]
    exact ⟨rfl, by cases e <;> rfl⟩

/-- C4 witness: a matching message is classified, a non-matching plain error
passes through unchanged. -/
theorem normalizeError_boundary_spec_witness :
    normalizeError (.err (.plain "connect ECONNREFUSED 127.0.0.1:8765"))
      = ankiConnectionError connectionRefusedMessage
          (some (.plain "connect ECONNREFUSED 127.0.0.1:8765")) ∧
    normalizeError (.err (.plain "boom")) = .plain "boom" := by
  refine ⟨((normalizeError_boundary_spec
      (.plain "connect ECONNREFUSED 127.0.0.1:8765")).1 (by decide)).1, ?_⟩
  exact (normalizeError_boundary_spec (.plain "boom")).2.2.2.1
    (by decide) (by decide) (by decide)

/-- C5: the classification order is fixed — ECONNREFUSED first (even when a
later pattern also matches), then timeout/ETIMEDOUT (so
`Error("connection timeout")` becomes a TimeoutError, not a ConnectionError),
then — otherwise — a message containing "collection unavailable" yields an
ApiError; re-normalizing an error the normalizer produced as a DomainError
returns it unchanged (no double-wrapping); non-`Error` thrown values are
coerced to `Error(String(value))`. -/
theorem normalizeError_precedence_spec :
    (∀ e : JsError, jsIncludes e.message "ECONNREFUSED" = true →
      normalizeError (.err e) = ankiConnectionError connectionRefusedMessage (some e)) ∧
    (∀ e : JsError, jsIncludes e.message "ECONNREFUSED" = false →
      (jsIncludes e.message "timeout" || jsIncludes e.message "ETIMEDOUT") = true →
      normalizeError (.err e) = ankiTimeoutError timedOutMessage (some e)) ∧
    (∀ e : JsError, jsIncludes e.message "ECONNREFUSED" = false →
      (jsIncludes e.message "timeout" || jsIncludes e.message "ETIMEDOUT") = false →
      jsIncludes e.message "collection unavailable" = true →
      normalizeError (.err e) = ankiApiError collectionUnavailableMessage (some e)) ∧
    normalizeError (.err (.plain "connection timeout"))
      = ankiTimeoutError timedOutMessage (some (.plain "connection timeout")) ∧
    (∀ t, (normalizeError t).isDomainError = true →
      normalizeError (.err (normalizeError t)) = normalizeError t) ∧
    (∀ s, normalizeError (.nonError s) = .plain s) := by
  refine ⟨normalizeError_econnCase, normalizeError_timeoutCase,
    normalizeError_collectionCase,
    normalizeError_timeoutCase _ (by decide) (by decide),
    normalizeError_idem_on_domain, fun s => rfl⟩

/-- C5 witness: precedence on a message matching all three patterns, the
ApiError classification of a collection-unavailable message, idempotence on a
normalized timeout error, and non-Error coercion. -/
theorem normalizeError_precedence_spec_witness :
    normalizeError (.err (.plain "ECONNREFUSED timeout collection unavailable"))
      = ankiConnectionError connectionRefusedMessage
          (some (.plain "ECONNREFUSED timeout collection unavailable")) ∧
    normalizeError (.err (.plain "anki collection unavailable"))
      = ankiApiError collectionUnavailableMessage
          (some (.plain "anki collection unavailable")) ∧
    normalizeError
        (.err (normalizeError (.err (.plain "connection timeout"))))
      = normalizeError (.err (.plain "connection timeout")) ∧
    normalizeError (.nonError "42") = .plain "42" := by
  refine ⟨normalizeError_precedence_spec.1 _ (by decide), ?_, ?_, ?_⟩
  · exact normalizeError_precedence_spec.2.2.1 _ (by decide) (by decide) (by decide)
  · exact normalizeError_precedence_spec.2.2.2.2.1 _ (by decide)
  · exact normalizeError_precedence_spec.2.2.2.2.2 "42"

/-- C1: `executeWithRetry(op, name, N)` invokes the operation until its first
success and at most N+1 times; if attempt k (0-indexed, k ≤ N) is the first
success, its value is returned and the operation was invoked exactly k+1
times; if all N+1 attempts throw, the operation is invoked exactly N+1 times
and the normalization of the last thrown error is thrown. -/
theorem executeWithRetry_attempt_spec (op : Nat → Except Thrown T) (N d : Nat) :
    (executeWithRetry op N d).invocations ≤ N + 1 ∧
    (∀ k v, k ≤ N → (∀ j, j < k → ∃ e, op j = .error e) → op k = .ok v →
      (executeWithRetry op N d).result = .ok v ∧
      (executeWithRetry op N d).invocations = k + 1) ∧
    ((∀ j, j ≤ N → ∃ e, op j = .error e) →
      (executeWithRetry op N d).invocations = N + 1 ∧
      ∃ e, op N = .error e ∧
        (executeWithRetry op N d).result = .error (normalizeError e)) := by
  refine ⟨retryAux_invocations_le op d 0 N, ?_, ?_⟩
  · intro k v hk hfail hok
    exact retryAux_ok op d k 0 N v hk
      (fun j hj => by simpa using hfail j hj) (by simpa using hok)
  · intro hfail
    have h := retryAux_allFail op d N 0 (fun j hj => by simpa using hfail j hj)
    obtain ⟨hinv, e, he, hres⟩ := h
    exact ⟨hinv, e, by simpa using he, hres⟩

/-- C1 witness: an operation throwing once then succeeding is invoked exactly
twice under N=1 and its value returned; an operation always throwing
`Error("ECONNREFUSED")` is invoked exactly 3 times under N=2 and an
`AnkiConnectionError` is thrown. -/
theorem executeWithRetry_attempt_spec_witness :
    ((executeWithRetry opOnceThenOk 1 1000).result = .ok 42 ∧
      (executeWithRetry opOnceThenOk 1 1000).invocations = 2) ∧
    ((executeWithRetry opAlwaysRefused 2 1000).invocations = 3 ∧
      (executeWithRetry opAlwaysRefused 2 1000).result
        = .error (ankiConnectionError connectionRefusedMessage
            (some (.plain "ECONNREFUSED")))) := by
  constructor
  · exact (executeWithRetry_attempt_spec opOnceThenOk 1 1000).2.1 1 42
      (by omega)
      (fun j hj => ⟨.err (.plain "ECONNREFUSED"), by
        have hj0 : j = 0 := by omega
        subst hj0; rfl⟩)
      rfl
  · obtain ⟨hinv, e, he, hres⟩ :=
      (executeWithRetry_attempt_spec opAlwaysRefused 2 1000).2.2
        (fun j _ => ⟨.err (.plain "ECONNREFUSED"), rfl⟩)
    have he' : e = .err (.plain "ECONNREFUSED") := by
      have : Except.error (ε := Thrown) (α := Nat) e
          = .error (.err (.plain "ECONNREFUSED")) := by
        rw [← he]; rfl
      exact (Except.error.injEq _ _).mp this
    subst he'
    exact ⟨hinv, by rw [hres]; exact congrArg Except.error (by decide)⟩

theorem retryAux_sleeps (op : Nat → Except Thrown T) (d : Nat) :
    ∀ r a, (retryAux op d a r).sleeps =
      (List.range ((retryAux op d a r).invocations - 1)).map
        (fun k => min (1000 * 2 ^ (a + k)) d) := by
  intro r
  induction r with
  | zero => intro a; unfold retryAux; cases op a <;> simp
  | succ r ih =>
    intro a
    unfold retryAux
    cases hop : op a with
    | ok v => simp
    | error raw =>
      have hpos := retryAux_invocations_pos op d (a + 1) r
      obtain ⟨n, hn⟩ : ∃ n, (retryAux op d (a + 1) r).invocations = n + 1 :=
        ⟨(retryAux op d (a + 1) r).invocations - 1, by omega⟩
      have hrest := ih (a + 1)
      rw [hn, Nat.add_sub_cancel] at hrest
      show min (1000 * 2 ^ a) d :: (retryAux op d (a + 1) r).sleeps
          = (List.range ((retryAux op d (a + 1) r).invocations)).map
            (fun k => min (1000 * 2 ^ (a + k)) d)
      rw [hn, List.range_succ_eq_map, List.map_cons, List.map_map, hrest]
      congr 1
      apply List.map_congr_left
      intro k _
      have hkk : a + 1 + k = a + (k + 1) := by omega
      rw [hkk]
      simp [Function.comp_apply, Nat.succ_eq_add_one]

/-- C3 counterexample: with the repository's default `retryDelay` of 1000 ms
(the AnkiConfig constructor default, used as the backoff ceiling), an
always-failing operation under `executeWithRetry(op, name, 2)` sleeps
1000 + 1000 = 2000 ms in total — both backoff delays are capped by the
ceiling — not the claimed 1000 + 2000 = 3000 ms. -/
theorem executeWithRetry_backoff_counterexample :
    defaultAnkiConfigParams.retryDelay = 1000 ∧
    (executeWithRetry opAlwaysRefused 2 1000).sleeps = [1000, 1000] ∧
    (executeWithRetry opAlwaysRefused 2 1000).sleeps.sum ≠ 1000 + 2000 := by
  exact ⟨rfl, rfl, by decide⟩

/-- C3 (amended): after every failed attempt k (0-indexed) that is not the
final attempt, the wrapper sleeps exactly `min(1000 * 2^k, retryDelay)` ms and
no sleep follows the final attempt (the sleep list is indexed by the non-final
attempts); for `executeWithRetry(op, name, 2)` with an always-failing
operation, the total backoff sleep time is
`min(1000, retryDelay) + min(2000, retryDelay)` ms — which is 1000 + 2000 only
when the configured retryDelay ceiling is at least 2000 ms. -/
theorem executeWithRetry_backoff_spec (op : Nat → Except Thrown T) (N d : Nat) :
    (executeWithRetry op N d).sleeps =
      (List.range ((executeWithRetry op N d).invocations - 1)).map
        (fun k => min (1000 * 2 ^ k) d) ∧
    ((∀ j, ∃ e, op j = .error e) →
      (executeWithRetry op 2 d).sleeps.sum = min 1000 d + min 2000 d) := by
  constructor
  · have h := retryAux_sleeps op d N 0
    simpa using h
  · intro hfail
    have h := retryAux_allFail op d 2 0 (fun j _ => by simpa using hfail j)
    have hs := retryAux_sleeps op d 2 0
    show (retryAux op d 0 2).sleeps.sum = min 1000 d + min 2000 d
    rw [hs, h.1]
    norm_num [List.range_succ]

/-- C3 witness: with a 5000 ms ceiling, one failure before success produces the
single sleep [1000]; an always-failing operation under N=2 sleeps a total of
1000 + 2000 ms. -/
theorem executeWithRetry_backoff_spec_witness :
    (executeWithRetry opOnceThenOk 3 5000).sleeps = [1000] ∧
    (executeWithRetry opAlwaysRefused 2 5000).sleeps.sum = 1000 + 2000 := by
  constructor
  · have h := (executeWithRetry_backoff_spec opOnceThenOk 3 5000).1
    rw [h]; decide
  · have h := (executeWithRetry_backoff_spec opAlwaysRefused 2 5000).2
      (fun j => ⟨.err (.plain "ECONNREFUSED"), rfl⟩)
    simpa using h

theorem mapGet_append_single (c : Cache V) (k : String) (e : CacheEntry V)
    (h : c.any (fun p => p.1 == k) = false) :
    mapGet (c ++ [(k, e)]) k = some e := by
  induction c with
  | nil => simp [mapGet]
  | cons p rest ih =>
    simp only [List.any_cons, Bool.or_eq_false_iff] at h
    simpa [mapGet, h.1] using ih h.2

theorem mapGet_replaceAll (c : Cache V) (k : String) (e : CacheEntry V)
    (h : c.any (fun p => p.1 == k) = true) :
    mapGet (c.map (fun p => if p.1 == k then (k, e) else p)) k = some e := by
  induction c with
  | nil => simp at h
  | cons p rest ih =>
    cases hpk : (p.1 == k) with
    | true => simp [mapGet, hpk]
    | false =>
      have h' : rest.any (fun p => p.1 == k) = true := by
        simpa [List.any_cons, hpk] using h
      simpa [mapGet, hpk] using ih h'

theorem mapGet_mapSet_self (c : Cache V) (k : String) (e : CacheEntry V) :
    mapGet (mapSet c k e) k = some e := by
  unfold mapSet
  cases hany : c.any (fun p => p.1 == k) with
  | true => simpa [hany] using mapGet_replaceAll c k e hany
  | false => simpa [hany] using mapGet_append_single c k e hany

theorem executeWithRetry_ok0 (op : Nat → Except Thrown T) (N d : Nat) (v : T)
    (h : op 0 = .ok v) :
    executeWithRetry op N d = ⟨.ok v, 1, [], true⟩ := by
  cases N <;> unfold executeWithRetry retryAux <;> rw [h]

/-- C2: `executeWithCache` returns the cached value — with zero operation
invocations, no timer record, and no cache mutation — whenever the cache holds
an unexpired entry for the key; on a miss it delegates to `executeWithRetry`
and stores the result under the key with the given ttl exactly when the
delegation succeeds, while a failing delegation propagates the error with
nothing cached; hence two calls in quick succession over a succeeding
operation invoke the operation exactly once. -/
theorem executeWithCache_spec (c : Cache V) (key : String)
    (op : Nat → Except Thrown V) (N d ttl now : Nat) :
    (∀ entry, mapGet c key = some entry → now - entry.timestamp ≤ entry.ttl →
      executeWithCache c key op N d ttl now
        = ⟨.ok entry.data, c, 0, false⟩) ∧
    ((cacheGet c key now).1 = none →
      (∀ v, (executeWithRetry op N d).result = .ok v →
        executeWithCache c key op N d ttl now
          = ⟨.ok v, cacheSet (cacheGet c key now).2 key v ttl now,
              (executeWithRetry op N d).invocations, true⟩) ∧
      (∀ e, (executeWithRetry op N d).result = .error e →
        executeWithCache c key op N d ttl now
          = ⟨.error e, (cacheGet c key now).2,
              (executeWithRetry op N d).invocations, true⟩)) ∧
    (∀ v, op 0 = .ok v → mapGet c key = none →
      executeWithCache c key op N d ttl now
        = ⟨.ok v, cacheSet c key v ttl now, 1, true⟩ ∧
      (∀ now2, now2 - now ≤ ttl →
        executeWithCache (cacheSet c key v ttl now) key op N d ttl now2
          = ⟨.ok v, cacheSet c key v ttl now, 0, false⟩)) := by
  refine ⟨?_, ?_, ?_⟩
  · intro entry he hfresh
    have hcg : cacheGet c key now = (some entry.data, c) := by
      unfold cacheGet
      rw [he]
      show (if now - entry.timestamp > entry.ttl then (none, mapDelete c key)
          else (some entry.data, c)) = (some entry.data, c)
      rw [if_neg (by omega)]
    unfold executeWithCache
    rw [hcg]
  · intro hmiss
    rcases hcg : cacheGet c key now with ⟨o, c1⟩
    rw [hcg] at hmiss
    simp only at hmiss
    subst hmiss
    have htimer : (executeWithRetry op N d).timerRecorded = true :=
      retryAux_timerRecorded op d 0 N
    constructor
    · intro v hv
      unfold executeWithCache
      rw [hcg]
      simp only [hv, htimer]
    · intro e he
      unfold executeWithCache
      rw [hcg]
      simp only [he, htimer]
  · intro v hok hnone
    have hretry := executeWithRetry_ok0 op N d v hok
    have hcg : cacheGet c key now = (none, c) := by
      unfold cacheGet; rw [hnone]
    constructor
    · unfold executeWithCache
      rw [hcg, hretry]
    · intro now2 hfresh
      have hget2 : mapGet (cacheSet c key v ttl now) key
          = some ⟨v, now, ttl⟩ := mapGet_mapSet_self c key ⟨v, now, ttl⟩
      have hcg2 : cacheGet (cacheSet c key v ttl now) key now2
          = (some v, cacheSet c key v ttl now) := by
        unfold cacheGet
        rw [hget2]
        show (if now2 - now > ttl then (none, mapDelete (cacheSet c key v ttl now) key)
            else (some v, cacheSet c key v ttl now))
          = (some v, cacheSet c key v ttl now)
        rw [if_neg (by omega)]
      unfold executeWithCache
      rw [hcg2]

/-- C2 witness: on an empty cache, the first call invokes the operation once,
records a timer, and caches the value; a second call within the TTL window
returns the cached value with zero invocations and no timer record. -/
theorem executeWithCache_spec_witness :
    executeWithCache ([] : Cache Nat) "modelNames" (fun _ => .ok 7) 3 1000 300000 100
      = ⟨.ok 7, cacheSet [] "modelNames" 7 300000 100, 1, true⟩ ∧
    executeWithCache (cacheSet ([] : Cache Nat) "modelNames" 7 300000 100)
        "modelNames" (fun _ => .ok 7) 3 1000 300000 200
      = ⟨.ok 7, cacheSet [] "modelNames" 7 300000 100, 0, false⟩ := by
  have h := (executeWithCache_spec ([] : Cache Nat) "modelNames"
    (fun _ => .ok 7) 3 1000 300000 100).2.2 7 rfl rfl
  exact ⟨h.1, h.2 200 (by omega)⟩


theorem cacheWF_mapSet (c : Cache V) (k : String) (e : CacheEntry V)
    (h : CacheWF c) : CacheWF (mapSet c k e) := by
  unfold CacheWF mapSet
  cases hany : c.any (fun p => p.1 == k) with
  | true =>
    simp only [hany, if_true]
    have hkeys : (c.map (fun p => if p.1 == k then (k, e) else p)).map Prod.fst
        = c.map Prod.fst := by
      rw [List.map_map]
      apply List.map_congr_left
      intro p _
      cases hpk : (p.1 == k) with
      | true =>
        have hpkeq : p.1 = k := eq_of_beq hpk
        simp [Function.comp_apply, hpk, hpkeq]
      | false =>
        have hne : p.1 ≠ k := by simpa using hpk
        simp [Function.comp_apply, hne]
    rw [hkeys]
    exact h
  | false =>
    simp only [hany, Bool.false_eq_true, if_false, List.map_append]
    apply List.Nodup.append h (List.nodup_singleton k)
    intro a ha hmem
    simp only [List.map_cons, List.map_nil, List.mem_singleton] at hmem
    obtain ⟨p, hp, hpa⟩ := List.mem_map.mp ha
    have hall : ∀ (x : String) (b : CacheEntry V), (x, b) ∈ c → ¬ x = k := by
      simpa using hany
    exact hall p.1 p.2 (by simpa using hp) (hpa.trans hmem)

theorem totalEntries_mapDelete (c : Cache V) (k : String)
    (hwf : CacheWF c) (hmem : mapGet c k ≠ none) :
    totalEntries (mapDelete c k) + 1 = totalEntries c := by
  induction c with
  | nil => simp [mapGet] at hmem
  | cons p rest ih =>
    unfold CacheWF at hwf
    simp only [List.map_cons, List.nodup_cons] at hwf
    cases hpk : (p.1 == k) with
    | true =>
      have hpkeq : p.1 = k := eq_of_beq hpk
      have hrest : List.filter (fun q => q.1 != k) rest = rest := by
        apply List.filter_eq_self.mpr
        intro q hq
        have hqk : q.1 ≠ k := fun hqk =>
          hwf.1 (hpkeq ▸ hqk ▸ List.mem_map_of_mem Prod.fst hq)
        simpa using hqk
      have hcond : (p.1 != k) = false := by simp [bne, hpk]
      show (List.filter (fun q => q.1 != k) (p :: rest)).length + 1
          = (p :: rest).length
      rw [List.filter_cons, hcond]
      simp [hrest]
    | false =>
      have hmem' : mapGet rest k ≠ none := by
        unfold mapGet at hmem
        simpa [hpk] using hmem
      have hlen := ih hwf.2 hmem'
      unfold totalEntries mapDelete at hlen
      have hcond : (p.1 != k) = true := by simp [bne, hpk]
      show (List.filter (fun q => q.1 != k) (p :: rest)).length + 1
          = (p :: rest).length
      rw [List.filter_cons, hcond]
      simp only [if_true, List.length_cons]
      omega

/-- C6: for an entry set with ttl T at time t0, a read at time t returns the
stored value whenever t - t0 ≤ T and returns absent whenever t - t0 > T; the
expired read also deletes the entry, so the cache size reported by
`getStats().totalEntries` drops by one (lazy eviction); and a read's only
possible side effect on any cache is that one deletion. -/
theorem cacheManager_ttl_spec (c : Cache V) (key : String) (v : V)
    (T t0 t : Nat) (hwf : CacheWF c) :
    (t - t0 ≤ T → cacheGet (cacheSet c key v T t0) key t
        = (some v, cacheSet c key v T t0)) ∧
    (t - t0 > T →
      cacheGet (cacheSet c key v T t0) key t
        = (none, mapDelete (cacheSet c key v T t0) key) ∧
      totalEntries (mapDelete (cacheSet c key v T t0) key) + 1
        = totalEntries (cacheSet c key v T t0)) ∧
    (∀ c0 : Cache V,
      (cacheGet c0 key t).2 = c0 ∨ (cacheGet c0 key t).2 = mapDelete c0 key) := by
  have hget : mapGet (cacheSet c key v T t0) key = some ⟨v, t0, T⟩ :=
    mapGet_mapSet_self c key ⟨v, t0, T⟩
  refine ⟨?_, ?_, ?_⟩
  · intro hfresh
    unfold cacheGet
    rw [hget]
    show (if t - t0 > T then (none, mapDelete (cacheSet c key v T t0) key)
        else (some v, cacheSet c key v T t0)) = (some v, cacheSet c key v T t0)
    rw [if_neg (by omega)]
  · intro hexp
    constructor
    · unfold cacheGet
      rw [hget]
      show (if t - t0 > T then (none, mapDelete (cacheSet c key v T t0) key)
          else (some v, cacheSet c key v T t0))
        = (none, mapDelete (cacheSet c key v T t0) key)
      rw [if_pos (by omega)]
    · exact totalEntries_mapDelete (cacheSet c key v T t0) key
        (cacheWF_mapSet c key ⟨v, t0, T⟩ hwf) (by rw [hget]; exact fun h => by cases h)
  · intro c0
    unfold cacheGet
    cases hg : mapGet c0 key with
    | none => exact Or.inl rfl
    | some entry =>
      by_cases hexp : t - entry.timestamp > entry.ttl
      · right
        show (if t - entry.timestamp > entry.ttl then (none, mapDelete c0 key)
            else (some entry.data, c0)).2 = mapDelete c0 key
        rw [if_pos hexp]
      · left
        show (if t - entry.timestamp > entry.ttl then (none, mapDelete c0 key)
            else (some entry.data, c0)).2 = c0
        rw [if_neg hexp]

/-- C6 witness: an entry set at t0 = 0 with ttl 60000 is returned at t = 60000
(60000 - 0 ≤ 60000) and is absent at t = 60001, where the read deletes it and
the entry count drops from 1 back by one. -/
theorem cacheManager_ttl_spec_witness :
    cacheGet (cacheSet ([] : Cache Nat) "deckStats:Default" 5 60000 0)
        "deckStats:Default" 60000
      = (some 5, cacheSet [] "deckStats:Default" 5 60000 0) ∧
    cacheGet (cacheSet ([] : Cache Nat) "deckStats:Default" 5 60000 0)
        "deckStats:Default" 60001
      = (none, mapDelete (cacheSet [] "deckStats:Default" 5 60000 0)
          "deckStats:Default") ∧
    totalEntries (mapDelete (cacheSet ([] : Cache Nat) "deckStats:Default" 5 60000 0)
          "deckStats:Default") + 1
      = totalEntries (cacheSet ([] : Cache Nat) "deckStats:Default" 5 60000 0) := by
  have h1 := cacheManager_ttl_spec ([] : Cache Nat) "deckStats:Default" 5 60000 0 60000
    (by simp [CacheWF])
  have h2 := cacheManager_ttl_spec ([] : Cache Nat) "deckStats:Default" 5 60000 0 60001
    (by simp [CacheWF])
  exact ⟨h1.1 (by omega), (h2.2.1 (by omega)).1, (h2.2.1 (by omega)).2⟩

theorem mapGet_deleteByPre_match (c : Cache V) (pre k : String)
    (h : jsStartsWith k pre = true) :
    mapGet (cacheDeleteByPre c pre) k = none := by
  induction c with
  | nil => rfl
  | cons p rest ih =>
    unfold cacheDeleteByPre at ih ⊢
    rw [List.filter_cons]
    cases hkeep : (!jsStartsWith p.1 pre) with
    | false => simpa using ih
    | true =>
      have hpk : (p.1 == k) = false := by
        cases hpk : (p.1 == k) with
        | false => rfl
        | true =>
          exfalso
          rw [eq_of_beq hpk, h] at hkeep
          simp at hkeep
      simpa [mapGet, hpk] using ih

theorem mapGet_deleteByPre_other (c : Cache V) (pre k : String)
    (h : jsStartsWith k pre = false) :
    mapGet (cacheDeleteByPre c pre) k = mapGet c k := by
  induction c with
  | nil => rfl
  | cons p rest ih =>
    unfold cacheDeleteByPre at ih ⊢
    rw [List.filter_cons]
    cases hpk : (p.1 == k) with
    | true =>
      have hkeep : (!jsStartsWith p.1 pre) = true := by
        rw [eq_of_beq hpk, h]
        rfl
      rw [hkeep]
      simp [mapGet, hpk]
    | false =>
      cases hkeep : (!jsStartsWith p.1 pre) with
      | true => simpa [mapGet, hpk] using ih
      | false => simpa [mapGet, hpk] using ih

theorem executeWithCache_miss_invocations (c : Cache V) (key : String)
    (opD : Nat → Except Thrown V) (N d ttl now : Nat)
    (h : mapGet c key = none) :
    (executeWithCache c key opD N d ttl now).invocations
      = (executeWithRetry opD N d).invocations := by
  have hcg : cacheGet c key now = (none, c) := by unfold cacheGet; rw [h]
  unfold executeWithCache
  rw [hcg]
  cases hres : (executeWithRetry opD N d).result <;> simp [hres]

theorem getDeckNames_invocations (c : Cache V) (opD : Nat → Except Thrown V)
    (N d now : Nat) :
    (getDeckNames c opD N d now).invocations
      = (executeWithCache c "deckNames" opD N d (2 * 60 * 1000) now).invocations := by
  unfold getDeckNames
  cases hres : (executeWithCache c "deckNames" opD N d (2 * 60 * 1000) now).result <;>
    simp [hres]

/-- C7: a successful `createDeck` empties exactly the "deck"-prefixed part of
the cache — every key starting with "deck" (such as "deckNames" and any
"deckStats:name") reads as absent while every other key reads unchanged — so
an immediately following `getDeckNames` goes back to the transport (at least
one transport invocation); a failed `createDeck` leaves the cache untouched
and throws the converted error. -/
theorem createDeck_invalidation_spec (c : Cache V)
    (op : Nat → Except Thrown (Option Int)) (N d : Nat) :
    (∀ v, (executeWithRetry op N d).result = .ok v →
      (createDeck c op N d).result = .ok (v.getD 0) ∧
      (∀ k, jsStartsWith k "deck" = true →
        mapGet (createDeck c op N d).cache k = none) ∧
      (∀ k, jsStartsWith k "deck" = false →
        mapGet (createDeck c op N d).cache k = mapGet c k) ∧
      (∀ (opD : Nat → Except Thrown V) (now : Nat),
        1 ≤ (getDeckNames (createDeck c op N d).cache opD N d now).invocations)) ∧
    (∀ e, (executeWithRetry op N d).result = .error e →
      (createDeck c op N d).cache = c ∧
      (createDeck c op N d).result
        = .error (toMcpError (normalizeError (.err e)))) := by
  constructor
  · intro v hres
    have hcd : createDeck c op N d
        = ⟨.ok (v.getD 0), cacheDeleteByPre c "deck",
            (executeWithRetry op N d).invocations⟩ := by
      simp only [createDeck, hres]
      cases v <;> rfl
    rw [hcd]
    refine ⟨rfl, ?_, ?_, ?_⟩
    · intro k hk
      exact mapGet_deleteByPre_match c "deck" k hk
    · intro k hk
      exact mapGet_deleteByPre_other c "deck" k hk
    · intro opD now
      have hmiss : mapGet (cacheDeleteByPre c "deck") "deckNames" = none :=
        mapGet_deleteByPre_match c "deck" "deckNames" (by decide)
      rw [getDeckNames_invocations, executeWithCache_miss_invocations _ _ _ _ _ _ _ hmiss]
      exact retryAux_invocations_pos opD d 0 N
  · intro e hres
    have hcd : createDeck c op N d
        = ⟨.error (toMcpError (normalizeError (.err e))), c,
            (executeWithRetry op N d).invocations⟩ := by
      simp only [createDeck, hres]
    rw [hcd]
    exact ⟨rfl, rfl⟩

/-- C7 witness: on a cache holding "deckNames" and "modelNames", a successful
createDeck empties "deckNames" but leaves "modelNames" unchanged, getDeckNames
afterwards hits the transport, and a failing createDeck leaves the cache as it
was. -/
theorem createDeck_invalidation_spec_witness :
    (createDeck ([("deckNames", ⟨1, 0, 120000⟩), ("modelNames", ⟨2, 0, 300000⟩)]
        : Cache Nat) (fun _ => .ok (some 99)) 3 1000).result = .ok 99 ∧
    mapGet (createDeck ([("deckNames", ⟨1, 0, 120000⟩), ("modelNames", ⟨2, 0, 300000⟩)]
        : Cache Nat) (fun _ => .ok (some 99)) 3 1000).cache "deckNames" = none ∧
    mapGet (createDeck ([("deckNames", ⟨1, 0, 120000⟩), ("modelNames", ⟨2, 0, 300000⟩)]
        : Cache Nat) (fun _ => .ok (some 99)) 3 1000).cache "modelNames"
      = mapGet ([("deckNames", ⟨1, 0, 120000⟩), ("modelNames", ⟨2, 0, 300000⟩)]
        : Cache Nat) "modelNames" ∧
    1 ≤ (getDeckNames (createDeck ([("deckNames", ⟨1, 0, 120000⟩),
        ("modelNames", ⟨2, 0, 300000⟩)] : Cache Nat)
        (fun _ => .ok (some 99)) 3 1000).cache (fun _ => .ok 5) 3 1000 50).invocations ∧
    (createDeck ([("deckNames", ⟨1, 0, 120000⟩), ("modelNames", ⟨2, 0, 300000⟩)]
        : Cache Nat) (fun _ => .error (.err (.plain "ECONNREFUSED"))) 3 1000).cache
      = ([("deckNames", ⟨1, 0, 120000⟩), ("modelNames", ⟨2, 0, 300000⟩)] : Cache Nat) := by
  have hok := (createDeck_invalidation_spec
      ([("deckNames", ⟨1, 0, 120000⟩), ("modelNames", ⟨2, 0, 300000⟩)] : Cache Nat)
      (fun _ => .ok (some 99)) 3 1000).1 (some 99) rfl
  have hfail := (createDeck_invalidation_spec
      ([("deckNames", ⟨1, 0, 120000⟩), ("modelNames", ⟨2, 0, 300000⟩)] : Cache Nat)
      (fun _ => .error (.err (.plain "ECONNREFUSED"))) 3 1000).2
      (ankiConnectionError connectionRefusedMessage (some (.plain "ECONNREFUSED"))) rfl
  exact ⟨hok.1, hok.2.1 "deckNames" (by decide), hok.2.2.1 "modelNames" (by decide),
    hok.2.2.2 (fun _ => .ok 5) 50, hfail.1⟩

theorem executeWithCacheNullable_miss (c : Cache (Option W)) (key : String)
    (op : Nat → Except Thrown (Option W)) (N d ttl now : Nat)
    (h : (cacheGet c key now).1.join = none) :
    executeWithCacheNullable c key op N d ttl now
      = (match (executeWithRetry op N d).result with
        | .ok v => ⟨.ok v, cacheSet (cacheGet c key now).2 key v ttl now,
            (executeWithRetry op N d).invocations, true⟩
        | .error e => ⟨.error e, (cacheGet c key now).2,
            (executeWithRetry op N d).invocations, true⟩) := by
  have htimer : (executeWithRetry op N d).timerRecorded = true :=
    retryAux_timerRecorded op d 0 N
  rcases hcg : cacheGet c key now with ⟨o, c1⟩
  rw [hcg] at h
  simp only at h
  simp only [executeWithCacheNullable, hcg, h]
  cases hres : (executeWithRetry op N d).result <;> simp [hres, htimer]

theorem executeWithCacheNullable_hit (c : Cache (Option W)) (key : String)
    (op : Nat → Except Thrown (Option W)) (N d ttl now : Nat) (w : W)
    (h : (cacheGet c key now).1.join = some w) :
    executeWithCacheNullable c key op N d ttl now
      = ⟨.ok (some w), (cacheGet c key now).2, 0, false⟩ := by
  rcases hcg : cacheGet c key now with ⟨o, c1⟩
  rw [hcg] at h
  simp only at h
  simp only [executeWithCacheNullable, hcg, h]

/-- C10: a stored null is indistinguishable from a miss at the cache-read
guard, so a null transport result is cached but never served: when the
operation resolves to null the value is stored under the key, yet any call
over a cache whose entry for the key holds null (expired or not) still
delegates to the retry wrapper and invokes the operation at least once; and
every call that returns without invoking the operation returns a non-null
value. -/
theorem executeWithCacheNullable_null_spec (c : Cache (Option W)) (key : String)
    (op : Nat → Except Thrown (Option W)) (N d ttl now : Nat) :
    (mapGet c key = none → (executeWithRetry op N d).result = .ok none →
      mapGet (executeWithCacheNullable c key op N d ttl now).cache key
        = some ⟨none, now, ttl⟩) ∧
    (∀ entry, mapGet c key = some entry → entry.data = none →
      (executeWithCacheNullable c key op N d ttl now).invocations
        = (executeWithRetry op N d).invocations ∧
      1 ≤ (executeWithCacheNullable c key op N d ttl now).invocations) ∧
    ((executeWithCacheNullable c key op N d ttl now).invocations = 0 →
      ∃ w, (executeWithCacheNullable c key op N d ttl now).result = .ok (some w)) := by
  have hpos : 1 ≤ (executeWithRetry op N d).invocations :=
    retryAux_invocations_pos op d 0 N
  refine ⟨?_, ?_, ?_⟩
  · intro hnone hres
    have hcg : cacheGet c key now = (none, c) := by unfold cacheGet; rw [hnone]
    have hrun := executeWithCacheNullable_miss c key op N d ttl now
      (by rw [hcg]; rfl)
    rw [hres] at hrun
    rw [hrun, hcg]
    exact mapGet_mapSet_self c key ⟨none, now, ttl⟩
  · intro entry hentry hdata
    have hjoin : (cacheGet c key now).1.join = none := by
      unfold cacheGet
      rw [hentry]
      show (if now - entry.timestamp > entry.ttl
          then ((none, mapDelete c key) : Option (Option W) × Cache (Option W))
          else (some entry.data, c)).1.join = none
      by_cases hexp : now - entry.timestamp > entry.ttl
      · rw [if_pos hexp]
        rfl
      · rw [if_neg hexp]
        simp [hdata]
    have hrun := executeWithCacheNullable_miss c key op N d ttl now hjoin
    rw [hrun]
    cases hres : (executeWithRetry op N d).result <;>
      simp [hres] <;> omega
  · intro hzero
    by_cases hjoin : ∃ w, (cacheGet c key now).1.join = some w
    · obtain ⟨w, hw⟩ := hjoin
      rw [executeWithCacheNullable_hit c key op N d ttl now w hw]
      exact ⟨w, rfl⟩
    · exfalso
      have hnone : (cacheGet c key now).1.join = none := by
        cases hj : (cacheGet c key now).1.join with
        | none => rfl
        | some w => exact absurd ⟨w, hj⟩ hjoin
      have hrun := executeWithCacheNullable_miss c key op N d ttl now hnone
      rw [hrun] at hzero
      cases hres : (executeWithRetry op N d).result <;>
        rw [hres] at hzero <;> simp at hzero <;> omega

/-- C10 witness: a null result is stored under the key; with a fresh stored
null the next call still invokes the operation (once here); a call served from
cache without invocation returns a non-null value. -/
theorem executeWithCacheNullable_null_spec_witness :
    mapGet (executeWithCacheNullable ([] : Cache (Option Nat)) "addNote"
        (fun _ => .ok none) 0 1000 300000 100).cache "addNote"
      = some ⟨none, 100, 300000⟩ ∧
    (executeWithCacheNullable ([("addNote", ⟨none, 100, 300000⟩)]
        : Cache (Option Nat)) "addNote"
        (fun _ => .ok none) 0 1000 300000 150).invocations = 1 ∧
    (∃ w, (executeWithCacheNullable ([("addNote", ⟨some 7, 100, 300000⟩)]
        : Cache (Option Nat)) "addNote"
        (fun _ => .ok none) 0 1000 300000 150).result = .ok (some w)) := by
  refine ⟨?_, ?_, ?_⟩
  · exact (executeWithCacheNullable_null_spec ([] : Cache (Option Nat)) "addNote"
      (fun _ => .ok none) 0 1000 300000 100).1 rfl rfl
  · have h := (executeWithCacheNullable_null_spec
      ([("addNote", ⟨none, 100, 300000⟩)] : Cache (Option Nat)) "addNote"
      (fun _ => .ok none) 0 1000 300000 150).2.1 ⟨none, 100, 300000⟩ rfl rfl
    rw [h.1]
    rfl
  · exact (executeWithCacheNullable_null_spec
      ([("addNote", ⟨some 7, 100, 300000⟩)] : Cache (Option Nat)) "addNote"
      (fun _ => .ok none) 0 1000 300000 150).2.2 rfl

theorem ite_nil_left {c : Prop} [Decidable c] (m : String) :
    ((if c then ([] : List String) else [m]) = []) ↔ c := by
  by_cases h : c <;> simp [h]

theorem ite_nil_right {c : Prop} [Decidable c] (m : String) :
    ((if c then [m] else ([] : List String)) = []) ↔ ¬c := by
  by_cases h : c <;> simp [h]

theorem validateErrors_eq_nil_iff (urlParses : String → Bool) (p : AnkiConfigParams) :
    validateErrors urlParses p = [] ↔ ParamsValid urlParses p := by
  unfold validateErrors ParamsValid
  simp only [List.append_eq_nil, ite_nil_left, ite_nil_right, Bool.or_eq_true,
    decide_eq_true_eq, not_or, and_assoc]
  constructor
  · rintro ⟨h1, h2a, h2b, h3a, h3b, h4a, h4b, h5a, h5b, h6⟩
    refine ⟨h1, by omega, by omega, by omega, by omega, by omega, by omega,
      by omega, by omega, by simpa using h6⟩
  · rintro ⟨h1, h2, h3, h4, h5, h6, h7, h8, h9, h10⟩
    refine ⟨h1, by omega, by omega, by omega, by omega, by omega, by omega,
      by omega, by omega, by simpa using h10⟩

/-- C8: constructing an AnkiConfig succeeds — returning an instance whose
fields are exactly the given parameters — precisely when the URL parses, the
apiVersion lies in [1,10], the timeout in [1000,60000] ms, the retryAttempts
in [0,10], the retryDelay in [100,10000] ms, and the default deck name is
nonempty after trimming; otherwise it throws a ConfigurationError; and
`withOverrides` constructs (hence eagerly validates) the merged parameters. -/
theorem ankiConfig_validation_spec (urlParses : String → Bool) (p : AnkiConfigParams) :
    (mkAnkiConfig urlParses p = .ok p ↔ ParamsValid urlParses p) ∧
    (¬ ParamsValid urlParses p →
      ∃ m, mkAnkiConfig urlParses p = .error (configurationError m)) ∧
    (∀ o, withOverrides urlParses p o = mkAnkiConfig urlParses (mergeOverrides p o)) := by
  refine ⟨?_, ?_, fun o => rfl⟩
  · constructor
    · intro h
      by_cases hh : validateErrors urlParses p = []
      · exact (validateErrors_eq_nil_iff urlParses p).mp hh
      · exfalso
        have hpos : 0 < (validateErrors urlParses p).length := List.length_pos.mpr hh
        unfold mkAnkiConfig at h
        rw [if_pos hpos] at h
        exact Except.noConfusion h
    · intro h
      have hnil := (validateErrors_eq_nil_iff urlParses p).mpr h
      unfold mkAnkiConfig
      rw [hnil]
      rfl
  · intro h
    have hne : validateErrors urlParses p ≠ [] := fun hh =>
      h ((validateErrors_eq_nil_iff urlParses p).mp hh)
    have hpos : 0 < (validateErrors urlParses p).length := List.length_pos.mpr hne
    unfold mkAnkiConfig
    rw [if_pos hpos]
    exact ⟨_, rfl⟩

/-- C8 witness: the default parameters construct successfully with fields
unchanged; a timeout of 50 ms (below the 1000 ms floor) throws a
ConfigurationError. -/
theorem ankiConfig_validation_spec_witness :
    mkAnkiConfig localhostOnly defaultAnkiConfigParams = .ok defaultAnkiConfigParams ∧
    (∃ m, mkAnkiConfig localhostOnly
      { defaultAnkiConfigParams with timeout := 50 } = .error (configurationError m)) := by
  constructor
  · exact (ankiConfig_validation_spec localhostOnly defaultAnkiConfigParams).1.mpr
      (by decide)
  · exact (ankiConfig_validation_spec localhostOnly
      { defaultAnkiConfigParams with timeout := 50 }).2.1 (by decide)

/-- C9: evaluation at the failing input. With items `[1, 2]`, batchSize 1 and
maxConcurrency 2 under an identity processor, the claim (and the spec's
shared-queue design) requires each item to be processed exactly once and the
result to be the concatenation of the two batch results, of length 2; the code
hands each of the two workers its own copy `[...batches]` of the queue, so
every batch is processed by every worker and the returned list holds each item
twice. -/
theorem processBatch_per_worker_copy_bug :
    processBatch [1, 2] (fun b : List Nat => (Except.ok b : Except Thrown (List Nat))) 1 2
      = [1, 2, 1, 2] ∧
    (processBatch [1, 2] (fun b : List Nat => (Except.ok b : Except Thrown (List Nat))) 1 2).length
      ≠ ([1, 2] : List Nat).length := by
  constructor <;> decide
